import Mathlib

/-!
Shallow embedding of the attendance verification and session-reconciliation
engine of the express-api repository.

Conventions used throughout:
* Local time (the code shifts every clock reading to Asia/Phnom_Penh and then
  works with the shifted value) is modelled as a natural number of
  milliseconds since a local epoch whose day 0 is a Thursday, matching the
  Unix epoch convention used by the JavaScript Date object.
* Floating point numbers are idealised as rationals.  The square root in
  getEuclideanDistance is not representable computably, so the comparator is
  embedded by its square: the value none stands for the Infinity returned on
  absent or length-mismatched inputs, and some s stands for sqrt s.  Since
  sqrt is monotone and nonnegative, sqrt s <= t holds iff 0 <= t and
  s <= t ^ 2, which is how the threshold comparison is embedded.
* The external biometric detector (faceapi.detectSingleFace) is modelled by
  an oracle field on the request: found d when the detector returns a
  descriptor, noFace when it resolves to undefined, unavailable when the
  call throws (graphics libraries or model files missing).  A thrown
  detector rejects the whole Promise.all join, so the unavailable outcome is
  tested before any of the per-request validations, exactly as in the source.
* Supabase tables are modelled as in-memory lists; query builders
  (select/eq/is/order/limit/insert/update) become the corresponding pure
  list operations.
-/

namespace ExpressApi

/-! ## Time model -/

abbrev Time := Nat

def msPerDay : Nat := 86400000

/-- Index of the local calendar day containing an instant. -/
def dayIndex (t : Time) : Nat := t / msPerDay

/-- Milliseconds elapsed since local midnight. -/
def msOfDay (t : Time) : Nat := t % msPerDay

/-- Day-of-week of a day index, 0 = Sunday .. 6 = Saturday; day 0 of the
local epoch is a Thursday (JavaScript getDay convention). -/
def weekdayOfDay (d : Nat) : Nat := (d + 4) % 7

/-! ## Punctuality classification

Embeds the status computation of checkIn: startTime is the same local day at
08:00:00.000 and lateTime at 08:15:00.000; the default is On Time, an
instant strictly before startTime is Early, an instant strictly after
lateTime is Late. -/

inductive StatusTime where
  | early
  | onTime
  | late
deriving DecidableEq, Repr

def startMs : Nat := 8 * 3600000

def lateMs : Nat := 8 * 3600000 + 15 * 60000

def classifyStatus (t : Time) : StatusTime :=
  if msOfDay t < startMs then StatusTime.early
  else if msOfDay t > lateMs then StatusTime.late
  else StatusTime.onTime

def statusString : StatusTime → String
  | StatusTime.early => "Early"
  | StatusTime.onTime => "On Time"
  | StatusTime.late => "Late"

/-! ## Embedding comparator

getEuclideanDistance returns Infinity when either argument is absent or the
lengths differ, and otherwise the square root of the indexed reduce
sum((face1[i] - face2[i])^2).  The embedding carries the square of the
distance, with none standing for Infinity. -/

def sumSqDiff (face1 face2 : List ℚ) : ℚ :=
  (List.range face1.length).foldl
    (fun sum i => sum + (face1.getD i 0 - face2.getD i 0) ^ 2) 0

def getEuclideanDistanceSq (face1 face2 : Option (List ℚ)) : Option ℚ :=
  match face1, face2 with
  | some f1, some f2 =>
      if f1.length = f2.length then some (sumSqDiff f1 f2) else none
  | _, _ => none

/-- Threshold comparison distance <= t, expressed on the squared distance:
sqrt s <= t iff 0 <= t and s <= t ^ 2; Infinity is never <= t. -/
def isMatch (face1 face2 : Option (List ℚ)) (t : ℚ) : Bool :=
  match getEuclideanDistanceSq face1 face2 with
  | none => false
  | some s => decide (0 ≤ t ∧ s ≤ t ^ 2)

/-- Spec-side definition for the refinement comparison: the Euclidean
distance (squared) between two vectors of equal length, written from the
words of the Embedding Comparator contract, to be compared with the source
embedding getEuclideanDistanceSq. -/
def euclidSqSpec (a b : List ℚ) : ℚ :=
  ((a.zip b).map (fun p => (p.1 - p.2) ^ 2)).sum

/-! ## Base64 encoding

Buffer.toString with the base64 encoding: standard alphabet, two or one
padding characters for a trailing group of one or two bytes. -/

def base64Alphabet : String :=
  "ABCDEFGHIJKLMNOPQRSTUVWXYZabcdefghijklmnopqrstuvwxyz0123456789+/"

def b64c (n : Nat) : Char := base64Alphabet.toList.getD n 'A'

def encodeBase64 : List Nat → String
  | [] => ""
  | [a] => String.mk [b64c (a / 4), b64c (a % 4 * 16), '=', '=']
  | [a, b] => String.mk [b64c (a / 4), b64c (a % 4 * 16 + b / 16), b64c (b % 16 * 4), '=']
  | a :: b :: c :: rest =>
      String.mk [b64c (a / 4), b64c (a % 4 * 16 + b / 16),
                 b64c (b % 16 * 4 + c / 64), b64c (c % 64)] ++ encodeBase64 rest

/-! ## Data model -/

structure Employee where
  id : Nat
  face_encoding : Option (List ℚ)
deriving DecidableEq, Repr

structure Session where
  id : Nat
  employee_id : Nat
  check_in_time : Time
  check_out_time : Option Time
  status : String
  status_time : Option String
  check_in_image : String
  check_out_image : Option String
deriving DecidableEq, Repr

structure Store where
  employees : List Employee
  attendance : List Session
  nextId : Nat
deriving DecidableEq, Repr

def initStore (emps : List Employee) : Store :=
  { employees := emps, attendance := [], nextId := 0 }

/-- Query employees select face_encoding eq id single. -/
def findEmployee (s : Store) (uid : Nat) : Option Employee :=
  s.employees.find? (fun e => e.id = uid)

/-- Rows of the attendance table belonging to an identity whose
check_out_time is null. -/
def openSessions (s : Store) (uid : Nat) : List Session :=
  s.attendance.filter (fun r => decide (r.employee_id = uid ∧ r.check_out_time = none))

/-- Query attendance eq employee_id, is check_out_time null, order by
check_in_time descending, limit 1, maybeSingle. -/
def latestOpen (s : Store) (uid : Nat) : Option Session :=
  (openSessions s uid).foldl
    (fun acc r =>
      match acc with
      | none => some r
      | some m => if m.check_in_time < r.check_in_time then some r else some m)
    none

/-! ## Requests and errors -/

inductive DetectResult where
  | found (desc : List ℚ)
  | noFace
  | unavailable
deriving DecidableEq, Repr

structure Req where
  image : Option (List Nat)
  userId : Option Nat
  detection : DetectResult
deriving DecidableEq, Repr

inductive ApiError where
  | validationNoImage
  | unauthenticated
  | identityNotFound
  | notEnrolled
  | noFaceDetected
  | extractionUnavailable
  | mismatch
  | noOpenSession
deriving DecidableEq, Repr

/-! ## Check-in

Embeds checkIn: image and user guards, the Promise.all join of the employee
fetch and the face detection (a thrown detection rejects the join before any
validation runs), then the validation chain in source order, then the
punctuality computation and the insert. -/

def mkCheckInSession (nid uid : Nat) (now : Time) (img : List Nat) : Session :=
  { id := nid
    employee_id := uid
    check_in_time := now
    check_out_time := none
    status := "present"
    status_time := some (statusString (classifyStatus now))
    check_in_image := encodeBase64 img
    check_out_image := none }

def checkIn (s : Store) (req : Req) (now : Time) : Except ApiError Session × Store :=
  match req.image with
  | none => (Except.error ApiError.validationNoImage, s)
  | some img =>
    match req.userId with
    | none => (Except.error ApiError.unauthenticated, s)
    | some uid =>
      if req.detection = DetectResult.unavailable then
        (Except.error ApiError.extractionUnavailable, s)
      else
        match findEmployee s uid with
        | none => (Except.error ApiError.identityNotFound, s)
        | some emp =>
          match emp.face_encoding with
          | none => (Except.error ApiError.notEnrolled, s)
          | some enc =>
            match req.detection with
            | DetectResult.unavailable => (Except.error ApiError.extractionUnavailable, s)
            | DetectResult.noFace => (Except.error ApiError.noFaceDetected, s)
            | DetectResult.found desc =>
              if isMatch (some enc) (some desc) (1 / 2) then
                let sess := mkCheckInSession s.nextId uid now img
                (Except.ok sess,
                 { s with attendance := s.attendance ++ [sess], nextId := s.nextId + 1 })
              else (Except.error ApiError.mismatch, s)

/-! ## Check-out

Embeds checkOut: same guards and join (the open-session fetch also joins),
validation chain in source order with the face comparison before the
open-session test, then the update of the found row by its id. -/

def closeForCheckOut (now : Time) (img : List Nat) (r : Session) : Session :=
  { r with check_out_time := some now
           status := "present"
           check_out_image := some (encodeBase64 img) }

def checkOut (s : Store) (req : Req) (now : Time) : Except ApiError Session × Store :=
  match req.image with
  | none => (Except.error ApiError.validationNoImage, s)
  | some img =>
    match req.userId with
    | none => (Except.error ApiError.unauthenticated, s)
    | some uid =>
      if req.detection = DetectResult.unavailable then
        (Except.error ApiError.extractionUnavailable, s)
      else
        match findEmployee s uid with
        | none => (Except.error ApiError.identityNotFound, s)
        | some emp =>
          match emp.face_encoding with
          | none => (Except.error ApiError.notEnrolled, s)
          | some enc =>
            match req.detection with
            | DetectResult.unavailable => (Except.error ApiError.extractionUnavailable, s)
            | DetectResult.noFace => (Except.error ApiError.noFaceDetected, s)
            | DetectResult.found desc =>
              if isMatch (some enc) (some desc) (1 / 2) then
                match latestOpen s uid with
                | none => (Except.error ApiError.noOpenSession, s)
                | some last =>
                  let upd := fun r =>
                    if r.id = last.id then closeForCheckOut now img r else r
                  (Except.ok (closeForCheckOut now img last),
                   { s with attendance := s.attendance.map upd })
              else (Except.error ApiError.mismatch, s)

/-! ## Reconciliation

Embeds runAutoCheckOut: select ids of the attendance rows whose
check_out_time is null and whose check_in_time lies between the local
midnight of now and 23:59:59.999 of the same day, then update every row with
a selected id to check_out_time = now.  The returned number is the count of
selected rows. -/

def closesToday (now : Time) (r : Session) : Bool :=
  decide (r.check_out_time = none) &&
  decide (dayIndex now * msPerDay ≤ r.check_in_time) &&
  decide (r.check_in_time ≤ dayIndex now * msPerDay + (msPerDay - 1))

def closeRecord (now : Time) (r : Session) : Session :=
  { r with check_out_time := some now, status := "present" }

def runAutoCheckOut (s : Store) (now : Time) : Nat × Store :=
  let records := s.attendance.filter (closesToday now)
  let ids := records.map (fun r => r.id)
  let newAtt := s.attendance.map (fun r => if ids.contains r.id then closeRecord now r else r)
  (records.length, { s with attendance := newAtt })

/-! ## Operation traces

Reachable states are those produced by a sequence of check-in, check-out and
reconciliation operations starting from a store with no attendance rows. -/

inductive Op where
  | opCheckIn (req : Req) (t : Time)
  | opCheckOut (req : Req) (t : Time)
  | opReconcile (t : Time)
deriving DecidableEq, Repr

def opTime : Op → Time
  | Op.opCheckIn _ t => t
  | Op.opCheckOut _ t => t
  | Op.opReconcile t => t

def applyOp (s : Store) : Op → Store
  | Op.opCheckIn req t => (checkIn s req t).2
  | Op.opCheckOut req t => (checkOut s req t).2
  | Op.opReconcile t => (runAutoCheckOut s t).2

def runOps (s : Store) (ops : List Op) : Store := ops.foldl applyOp s

/-- Invariant I2: whenever a session has a close time, it is not earlier
than its open time. -/
def InvI2 (s : Store) : Prop :=
  ∀ sess ∈ s.attendance, ∀ ct, sess.check_out_time = some ct → sess.check_in_time ≤ ct

/-- All open times in the store are at most t; the clock of a run of
operations never reads an instant below the open time of a row it already
inserted. -/
def BoundedBy (s : Store) (t : Time) : Prop :=
  ∀ sess ∈ s.attendance, sess.check_in_time ≤ t

/-! ## Enrollment saga

Embeds createEmployee.  The two external systems are modelled by a state
holding the list of external credential ids (Supabase Auth users) and the
list of employee rows (the relational store).  The environment supplies the
outcomes of the fallible external calls: whether the auth creation fails,
the id it allocates on success, and the outcome of the final insert. -/

structure EmployeeRow where
  auth_uid : Nat
  employee_code : String
  is_registered : Bool
  face_encoding : Option (List ℚ)
deriving DecidableEq, Repr

structure SagaState where
  credentials : List Nat
  identities : List EmployeeRow
deriving DecidableEq, Repr

structure EnrollReq where
  hasEmail : Bool
  hasPassword : Bool
  employee_code : Option String
  image : Option (List Nat)
  detection : DetectResult
deriving DecidableEq, Repr

inductive InsertOutcome where
  | insOk
  | uniqueViolation
  | storeFailure
deriving DecidableEq, Repr

structure SagaEnv where
  newCredId : Nat
  authCreateFails : Bool
  insertOutcome : InsertOutcome
deriving DecidableEq, Repr

inductive SagaError where
  | badRequest
  | conflictPreCheck
  | authFailure
  | noFace
  | conflict
  | internalFailure
deriving DecidableEq, Repr

def deleteCredential (st : SagaState) (cid : Nat) : SagaState :=
  { st with credentials := st.credentials.erase cid }

/-- Final insert of the employee row, with the rollback of the auth user on
failure: a unique violation (Postgres 23505) maps to Conflict, any other
store failure to an internal error. -/
def insertPhase (st1 : SagaState) (code : String) (enc : Option (List ℚ))
    (reg : Bool) (env : SagaEnv) : Except SagaError EmployeeRow × SagaState :=
  let row : EmployeeRow :=
    { auth_uid := env.newCredId, employee_code := code,
      is_registered := reg, face_encoding := enc }
  match env.insertOutcome with
  | InsertOutcome.insOk =>
      (Except.ok row, { st1 with identities := st1.identities ++ [row] })
  | InsertOutcome.uniqueViolation =>
      (Except.error SagaError.conflict, deleteCredential st1 env.newCredId)
  | InsertOutcome.storeFailure =>
      (Except.error SagaError.internalFailure, deleteCredential st1 env.newCredId)

/-- Embeds createEmployee: required-field validation, the best-effort
employee-code pre-check, the auth-user creation, the optional face
extraction (a thrown extraction, from missing graphics libraries or model
files, surfaces without deleting the auth user in the source; a no-face
outcome deletes it first), and the final insert with rollback. -/
def createEmployee (st : SagaState) (req : EnrollReq) (env : SagaEnv) :
    Except SagaError EmployeeRow × SagaState :=
  match req.employee_code with
  | none => (Except.error SagaError.badRequest, st)
  | some code =>
    if ¬ (req.hasEmail && req.hasPassword) then
      (Except.error SagaError.badRequest, st)
    else if st.identities.any (fun r => r.employee_code == code) then
      (Except.error SagaError.conflictPreCheck, st)
    else if env.authCreateFails then
      (Except.error SagaError.authFailure, st)
    else
      let st1 := { st with credentials := st.credentials ++ [env.newCredId] }
      match req.image with
      | some _ =>
        match req.detection with
        | DetectResult.unavailable => (Except.error SagaError.internalFailure, st1)
        | DetectResult.noFace =>
            (Except.error SagaError.noFace, deleteCredential st1 env.newCredId)
        | DetectResult.found d => insertPhase st1 code (some d) true env
      | none => insertPhase st1 code none false env

/-- A saga state with no orphaned credential: every external credential id is
referenced by some identity row. -/
def NoOrphan (st : SagaState) : Prop :=
  ∀ cid ∈ st.credentials, ∃ row ∈ st.identities, row.auth_uid = cid

/-- Guards of the saga before the auth-user creation succeed: required
fields present, employee code not yet taken, auth creation succeeding. -/
def SagaGuards (st : SagaState) (req : EnrollReq) (env : SagaEnv) (code : String) : Prop :=
  req.employee_code = some code ∧ req.hasEmail = true ∧ req.hasPassword = true ∧
  st.identities.any (fun r => r.employee_code == code) = false ∧
  env.authCreateFails = false

/-! ## Statistics aggregator

Embeds the statistics blocks of getAttendanceHistory (single identity,
Sunday and Saturday excluded from working days) and of
getAllAttendanceHistory (organization wide, only Sunday excluded).  The
source derives windowStart as the first day of the month of now through the
JavaScript calendar; the embedding takes that local-midnight instant as an
argument, since Gregorian month arithmetic is outside the core being
verified.  The while loop iterating local midnights d with d <= now becomes
a count over the day indices from the window start through now. -/

def workingDaysBetween (startDay nowDay : Nat) (excluded : List Nat) : Nat :=
  ((List.range (nowDay - startDay + 1)).filter
     (fun k => decide (weekdayOfDay (startDay + k) ∉ excluded))).length

def inWindow (windowStart now : Time) (r : Session) : Bool :=
  decide (windowStart ≤ r.check_in_time) && decide (r.check_in_time ≤ now) &&
  decide (r.status = "present")

structure Stats where
  absent : Int
  workingDays : Nat
  present : Nat
deriving DecidableEq, Repr

/-- Statistics of getAttendanceHistory: the Set of distinct calendar dates of
the present records in the month-to-date window, and
absent = max(0, workingDays - present). -/
def getAttendanceHistoryStats (att : List Session) (windowStart now : Time) : Stats :=
  let wd := workingDaysBetween (dayIndex windowStart) (dayIndex now) [0, 6]
  let uniquePresent :=
    ((att.filter (inWindow windowStart now)).map (fun r => dayIndex r.check_in_time)).dedup
  { absent := max 0 ((wd : Int) - uniquePresent.length),
    workingDays := wd, present := uniquePresent.length }

/-- Statistics of getAllAttendanceHistory: the Set of distinct
(employee_id, calendar date) pairs in the window, and
absent = max(0, totalEmployees * workingDays - present). -/
def getAllAttendanceHistoryStats (att : List Session) (totalEmployees : Nat)
    (windowStart now : Time) : Stats :=
  let wd := workingDaysBetween (dayIndex windowStart) (dayIndex now) [0]
  let uniquePresent :=
    ((att.filter (inWindow windowStart now)).map
       (fun r => (r.employee_id, dayIndex r.check_in_time))).dedup
  { absent := max 0 ((totalEmployees * wd : Int) - uniquePresent.length),
    workingDays := wd, present := uniquePresent.length }

/-! ## Concrete instances used by witnesses and counterexamples -/

def cEmployee : Employee := { id := 1, face_encoding := some [0] }

def cStore : Store := initStore [cEmployee]

/-- A request whose captured descriptor equals the stored encoding, so the
face comparison succeeds. -/
def cReq : Req := { image := some [1, 2, 3], userId := some 1, detection := DetectResult.found [0] }

/-- A request for an identity absent from the store whose extraction throws. -/
def cReqUnavail : Req := { image := some [1], userId := some 2, detection := DetectResult.unavailable }

/-- A request whose captured descriptor does not match the stored encoding. -/
def cReqMismatch : Req := { image := some [1], userId := some 1, detection := DetectResult.found [1] }

def cSess : Session := mkCheckInSession 0 1 100 [1, 2, 3]

/-- The store holding exactly the session inserted by a check-in of identity
1 at instant 100 on cStore. -/
def cStore1 : Store := { cStore with attendance := [cSess], nextId := 1 }

def cSagaSt : SagaState := { credentials := [], identities := [] }

def cSagaEnv : SagaEnv :=
  { newCredId := 7, authCreateFails := false, insertOutcome := InsertOutcome.insOk }

/-- The same environment, but the final insert hits a uniqueness race. -/
def cSagaEnvUV : SagaEnv :=
  { cSagaEnv with insertOutcome := InsertOutcome.uniqueViolation }

/-- An enrollment request whose image makes the extraction call throw. -/
def cEnrollUnavail : EnrollReq :=
  { hasEmail := true, hasPassword := true, employee_code := some "E1",
    image := some [1], detection := DetectResult.unavailable }

/-- An enrollment request whose image contains no detectable face. -/
def cEnrollNoFace : EnrollReq :=
  { cEnrollUnavail with detection := DetectResult.noFace }

/-- An enrollment request whose image yields a descriptor. -/
def cEnrollOk : EnrollReq :=
  { cEnrollUnavail with detection := DetectResult.found [0] }

/-- A session of identity 1 opened at instant 100 of day 0 and never closed. -/
def cOpenToday : Session :=
  { id := 0, employee_id := 1, check_in_time := 100, check_out_time := none,
    status := "present", status_time := none, check_in_image := "", check_out_image := none }

/-- A session opened on day 1, still open. -/
def cOpenTomorrow : Session :=
  { cOpenToday with id := 1, check_in_time := msPerDay + 5 }

/-- A session of day 0 already closed. -/
def cClosed : Session :=
  { cOpenToday with id := 2, check_out_time := some 150 }

def cStoreRec : Store :=
  { employees := [], attendance := [cOpenToday, cOpenTomorrow, cClosed], nextId := 3 }

/-- A present attendance row of identity 1 opened just after midnight of the
given day index. -/
def mkPresent (i d : Nat) : Session :=
  { id := i, employee_id := 1, check_in_time := d * msPerDay + 1, check_out_time := none,
    status := "present", status_time := none, check_in_image := "", check_out_image := none }

def cAtt3 : List Session := [mkPresent 0 1, mkPresent 1 2, mkPresent 2 3]

def cAtt25 : List Session := (List.range 25).map (fun k => mkPresent k k)

/-! ## Comparator lemmas -/

theorem foldl_add_map {α : Type} (l : List α) (f : α → ℚ) (c : ℚ) :
    l.foldl (fun acc x => acc + f x) c = c + (l.map f).sum := by
  induction l generalizing c with
  | nil => simp
  | cons x xs ih => simp [ih, add_assoc]

theorem sum_range_getD_eq_zip (a b : List ℚ) (h : a.length = b.length) :
    ((List.range a.length).map (fun i => (a.getD i 0 - b.getD i 0) ^ 2)).sum =
      euclidSqSpec a b := by
  induction a generalizing b with
  | nil => simp [euclidSqSpec]
  | cons x xs ih =>
    cases b with
    | nil => simp at h
    | cons y ys =>
      have hlen : xs.length = ys.length := by simpa using h
      rw [euclidSqSpec, List.zip_cons_cons, List.map_cons, List.sum_cons]
      rw [List.length_cons, List.range_succ_eq_map, List.map_cons, List.map_map, List.sum_cons,
        List.getD_cons_zero, List.getD_cons_zero]
      congr 1
      have ih' := ih ys hlen
      rw [euclidSqSpec] at ih'
      rw [← ih']
      apply congrArg List.sum
      apply List.map_congr_left
      intro i _
      simp [Function.comp, List.getD_cons_succ]

theorem sumSqDiff_eq_euclid (a b : List ℚ) (h : a.length = b.length) :
    sumSqDiff a b = euclidSqSpec a b := by
  unfold sumSqDiff
  rw [foldl_add_map, sum_range_getD_eq_zip a b h, zero_add]

theorem euclidSqSpec_self (a : List ℚ) : euclidSqSpec a a = 0 := by
  induction a with
  | nil => simp [euclidSqSpec]
  | cons x xs ih => simp [euclidSqSpec, List.zip_cons_cons] at ih ⊢; simp [ih]

theorem sumSqDiff_self (a : List ℚ) : sumSqDiff a a = 0 := by
  rw [sumSqDiff_eq_euclid a a rfl, euclidSqSpec_self]

theorem isMatch_self (a : List ℚ) : isMatch (some a) (some a) (1 / 2) = true := by
  simp only [isMatch, getEuclideanDistanceSq, if_pos rfl, sumSqDiff_self]
  norm_num

theorem isMatch_zero_one : isMatch (some [(0 : ℚ)]) (some [1]) (1 / 2) = false := by
  have h1 : sumSqDiff [(0 : ℚ)] [1] = 1 := by
    rw [sumSqDiff_eq_euclid [(0 : ℚ)] [1] rfl]
    simp [euclidSqSpec]
  simp only [isMatch, getEuclideanDistanceSq, if_pos rfl, h1]
  norm_num

/-- C2: if either embedding is absent or the lengths differ, the distance is
Infinity (embedded as none, since some s stands for the finite distance
sqrt s) and isMatch is false for every threshold; otherwise the distance is
the Euclidean distance of the two vectors, stated on squares:
getEuclideanDistanceSq returns exactly the spec-side sum of squared
coordinate differences, whose square root is the Euclidean distance. -/
theorem distance_fail_closed_and_euclidean :
    (∀ (f2 : Option (List ℚ)) (t : ℚ),
        getEuclideanDistanceSq none f2 = none ∧ isMatch none f2 t = false) ∧
    (∀ (f1 : Option (List ℚ)) (t : ℚ),
        getEuclideanDistanceSq f1 none = none ∧ isMatch f1 none t = false) ∧
    (∀ (a b : List ℚ) (t : ℚ), a.length ≠ b.length →
        getEuclideanDistanceSq (some a) (some b) = none ∧
        isMatch (some a) (some b) t = false) ∧
    (∀ (a b : List ℚ), a.length = b.length →
        getEuclideanDistanceSq (some a) (some b) = some (euclidSqSpec a b)) := by
  refine ⟨?_, ?_, ?_, ?_⟩
  · intro f2 t
    cases f2 <;> exact ⟨rfl, rfl⟩
  · intro f1 t
    cases f1 <;> exact ⟨rfl, rfl⟩
  · intro a b t h
    have hd : getEuclideanDistanceSq (some a) (some b) = none := by
      simp [getEuclideanDistanceSq, h]
    exact ⟨hd, by simp [isMatch, hd]⟩
  · intro a b h
    simp [getEuclideanDistanceSq, h, sumSqDiff_eq_euclid a b h]

/-- Witness for the distance claim at concrete inputs: a length-two vector
against a length-one vector is rejected with an infinite distance for the
threshold 5, and two equal-length vectors get their Euclidean distance. -/
theorem distance_fail_closed_and_euclidean_witness :
    (getEuclideanDistanceSq (some [(0 : ℚ), 1]) (some [(0 : ℚ)]) = none ∧
     isMatch (some [(0 : ℚ), 1]) (some [(0 : ℚ)]) 5 = false) ∧
    getEuclideanDistanceSq (some [(1 : ℚ), 2]) (some [(3 : ℚ), 5]) =
      some (euclidSqSpec [(1 : ℚ), 2] [(3 : ℚ), 5]) :=
  ⟨distance_fail_closed_and_euclidean.2.2.1 [(0 : ℚ), 1] [(0 : ℚ)] 5 (by decide),
   distance_fail_closed_and_euclidean.2.2.2 [(1 : ℚ), 2] [(3 : ℚ), 5] rfl⟩

/-! ## Path equations for checkIn -/

theorem checkIn_noImage (s : Store) (req : Req) (now : Time)
    (h1 : req.image = none) :
    checkIn s req now = (Except.error ApiError.validationNoImage, s) := by
  simp [checkIn, h1]

theorem checkIn_noUser (s : Store) (req : Req) (now : Time) (img : List Nat)
    (h1 : req.image = some img) (h2 : req.userId = none) :
    checkIn s req now = (Except.error ApiError.unauthenticated, s) := by
  simp [checkIn, h1, h2]

theorem checkIn_unavail (s : Store) (req : Req) (now : Time) (img : List Nat) (uid : Nat)
    (h1 : req.image = some img) (h2 : req.userId = some uid)
    (h3 : req.detection = DetectResult.unavailable) :
    checkIn s req now = (Except.error ApiError.extractionUnavailable, s) := by
  simp [checkIn, h1, h2, h3]

theorem checkIn_notFound (s : Store) (req : Req) (now : Time) (img : List Nat) (uid : Nat)
    (h1 : req.image = some img) (h2 : req.userId = some uid)
    (h3 : req.detection ≠ DetectResult.unavailable)
    (h4 : findEmployee s uid = none) :
    checkIn s req now = (Except.error ApiError.identityNotFound, s) := by
  simp [checkIn, h1, h2, h3, h4]

theorem checkIn_notEnrolled (s : Store) (req : Req) (now : Time) (img : List Nat) (uid : Nat)
    (emp : Employee)
    (h1 : req.image = some img) (h2 : req.userId = some uid)
    (h3 : req.detection ≠ DetectResult.unavailable)
    (h4 : findEmployee s uid = some emp) (h5 : emp.face_encoding = none) :
    checkIn s req now = (Except.error ApiError.notEnrolled, s) := by
  simp [checkIn, h1, h2, h3, h4, h5]

theorem checkIn_noFace (s : Store) (req : Req) (now : Time) (img : List Nat) (uid : Nat)
    (emp : Employee) (enc : List ℚ)
    (h1 : req.image = some img) (h2 : req.userId = some uid)
    (h3 : req.detection = DetectResult.noFace)
    (h4 : findEmployee s uid = some emp) (h5 : emp.face_encoding = some enc) :
    checkIn s req now = (Except.error ApiError.noFaceDetected, s) := by
  simp [checkIn, h1, h2, h3, h4, h5]

theorem checkIn_mismatch (s : Store) (req : Req) (now : Time) (img : List Nat) (uid : Nat)
    (emp : Employee) (enc desc : List ℚ)
    (h1 : req.image = some img) (h2 : req.userId = some uid)
    (h3 : req.detection = DetectResult.found desc)
    (h4 : findEmployee s uid = some emp) (h5 : emp.face_encoding = some enc)
    (h6 : isMatch (some enc) (some desc) (1 / 2) = false) :
    checkIn s req now = (Except.error ApiError.mismatch, s) := by
  simp [checkIn, h1, h2, h3, h4, h5]
  rwa [one_div] at h6

theorem checkIn_ok_eq (s : Store) (req : Req) (now : Time) (img : List Nat) (uid : Nat)
    (emp : Employee) (enc desc : List ℚ)
    (h1 : req.image = some img) (h2 : req.userId = some uid)
    (h3 : req.detection = DetectResult.found desc)
    (h4 : findEmployee s uid = some emp) (h5 : emp.face_encoding = some enc)
    (h6 : isMatch (some enc) (some desc) (1 / 2) = true) :
    checkIn s req now =
      (Except.ok (mkCheckInSession s.nextId uid now img),
       { s with attendance := s.attendance ++ [mkCheckInSession s.nextId uid now img],
                nextId := s.nextId + 1 }) := by
  simp [checkIn, h1, h2, h3, h4, h5]
  rwa [one_div] at h6

/-- Inversion of a successful check-in: all guards passed and the result is
the freshly inserted session appended to the attendance table. -/
theorem checkIn_ok_inv (s : Store) (req : Req) (now : Time) (sess : Session)
    (h : (checkIn s req now).1 = Except.ok sess) :
    ∃ img uid desc emp enc,
      req.image = some img ∧ req.userId = some uid ∧
      req.detection = DetectResult.found desc ∧
      findEmployee s uid = some emp ∧ emp.face_encoding = some enc ∧
      isMatch (some enc) (some desc) (1 / 2) = true ∧
      sess = mkCheckInSession s.nextId uid now img ∧
      (checkIn s req now).2 =
        { s with attendance := s.attendance ++ [sess], nextId := s.nextId + 1 } := by
  cases h1 : req.image with
  | none => rw [checkIn_noImage s req now h1] at h; simp at h
  | some img =>
  cases h2 : req.userId with
  | none => rw [checkIn_noUser s req now img h1 h2] at h; simp at h
  | some uid =>
  cases h3 : req.detection with
  | unavailable => rw [checkIn_unavail s req now img uid h1 h2 h3] at h; simp at h
  | noFace =>
    have h3' : req.detection ≠ DetectResult.unavailable := by rw [h3]; simp
    cases h4 : findEmployee s uid with
    | none => rw [checkIn_notFound s req now img uid h1 h2 h3' h4] at h; simp at h
    | some emp =>
    cases h5 : emp.face_encoding with
    | none => rw [checkIn_notEnrolled s req now img uid emp h1 h2 h3' h4 h5] at h; simp at h
    | some enc => rw [checkIn_noFace s req now img uid emp enc h1 h2 h3 h4 h5] at h; simp at h
  | found desc =>
    have h3' : req.detection ≠ DetectResult.unavailable := by rw [h3]; simp
    cases h4 : findEmployee s uid with
    | none => rw [checkIn_notFound s req now img uid h1 h2 h3' h4] at h; simp at h
    | some emp =>
    cases h5 : emp.face_encoding with
    | none => rw [checkIn_notEnrolled s req now img uid emp h1 h2 h3' h4 h5] at h; simp at h
    | some enc =>
    cases h6 : isMatch (some enc) (some desc) (1 / 2) with
    | false => rw [checkIn_mismatch s req now img uid emp enc desc h1 h2 h3 h4 h5 h6] at h; simp at h
    | true =>
      have heq := checkIn_ok_eq s req now img uid emp enc desc h1 h2 h3 h4 h5 h6
      rw [heq] at h
      have hsess : sess = mkCheckInSession s.nextId uid now img :=
        (Except.ok.inj h).symm
      refine ⟨img, uid, desc, emp, enc, rfl, rfl, rfl, h4, h5, h6, hsess, ?_⟩
      simp [heq, hsess]

/-- Every check-in that does not succeed leaves the store unchanged. -/
theorem checkIn_error_snd (s : Store) (req : Req) (now : Time) (e : ApiError)
    (h : (checkIn s req now).1 = Except.error e) :
    (checkIn s req now).2 = s := by
  cases h1 : req.image with
  | none => rw [checkIn_noImage s req now h1]
  | some img =>
  cases h2 : req.userId with
  | none => rw [checkIn_noUser s req now img h1 h2]
  | some uid =>
  cases h3 : req.detection with
  | unavailable => rw [checkIn_unavail s req now img uid h1 h2 h3]
  | noFace =>
    have h3' : req.detection ≠ DetectResult.unavailable := by rw [h3]; simp
    cases h4 : findEmployee s uid with
    | none => rw [checkIn_notFound s req now img uid h1 h2 h3' h4]
    | some emp =>
    cases h5 : emp.face_encoding with
    | none => rw [checkIn_notEnrolled s req now img uid emp h1 h2 h3' h4 h5]
    | some enc => rw [checkIn_noFace s req now img uid emp enc h1 h2 h3 h4 h5]
  | found desc =>
    have h3' : req.detection ≠ DetectResult.unavailable := by rw [h3]; simp
    cases h4 : findEmployee s uid with
    | none => rw [checkIn_notFound s req now img uid h1 h2 h3' h4]
    | some emp =>
    cases h5 : emp.face_encoding with
    | none => rw [checkIn_notEnrolled s req now img uid emp h1 h2 h3' h4 h5]
    | some enc =>
    cases h6 : isMatch (some enc) (some desc) (1 / 2) with
    | false => rw [checkIn_mismatch s req now img uid emp enc desc h1 h2 h3 h4 h5 h6]
    | true =>
      rw [checkIn_ok_eq s req now img uid emp enc desc h1 h2 h3 h4 h5 h6] at h
      simp at h

/-- The new store after a check-in: either unchanged, or the fresh session is
appended. -/
theorem checkIn_snd_cases (s : Store) (req : Req) (now : Time) :
    (checkIn s req now).2 = s ∨
    ∃ img uid,
      (checkIn s req now).2 =
        { s with attendance := s.attendance ++ [mkCheckInSession s.nextId uid now img],
                 nextId := s.nextId + 1 } := by
  cases h : (checkIn s req now).1 with
  | error e => exact Or.inl (checkIn_error_snd s req now e h)
  | ok sess =>
    obtain ⟨img, uid, _, _, _, _, _, _, _, _, _, hsess, hsnd⟩ := checkIn_ok_inv s req now sess h
    exact Or.inr ⟨img, uid, by rw [hsnd, hsess]⟩

/-! ## Path equations for checkOut -/

theorem checkOut_noImage (s : Store) (req : Req) (now : Time)
    (h1 : req.image = none) :
    checkOut s req now = (Except.error ApiError.validationNoImage, s) := by
  simp [checkOut, h1]

theorem checkOut_noUser (s : Store) (req : Req) (now : Time) (img : List Nat)
    (h1 : req.image = some img) (h2 : req.userId = none) :
    checkOut s req now = (Except.error ApiError.unauthenticated, s) := by
  simp [checkOut, h1, h2]

theorem checkOut_unavail (s : Store) (req : Req) (now : Time) (img : List Nat) (uid : Nat)
    (h1 : req.image = some img) (h2 : req.userId = some uid)
    (h3 : req.detection = DetectResult.unavailable) :
    checkOut s req now = (Except.error ApiError.extractionUnavailable, s) := by
  simp [checkOut, h1, h2, h3]

theorem checkOut_notFound (s : Store) (req : Req) (now : Time) (img : List Nat) (uid : Nat)
    (h1 : req.image = some img) (h2 : req.userId = some uid)
    (h3 : req.detection ≠ DetectResult.unavailable)
    (h4 : findEmployee s uid = none) :
    checkOut s req now = (Except.error ApiError.identityNotFound, s) := by
  simp [checkOut, h1, h2, h3, h4]

theorem checkOut_notEnrolled (s : Store) (req : Req) (now : Time) (img : List Nat) (uid : Nat)
    (emp : Employee)
    (h1 : req.image = some img) (h2 : req.userId = some uid)
    (h3 : req.detection ≠ DetectResult.unavailable)
    (h4 : findEmployee s uid = some emp) (h5 : emp.face_encoding = none) :
    checkOut s req now = (Except.error ApiError.notEnrolled, s) := by
  simp [checkOut, h1, h2, h3, h4, h5]

theorem checkOut_noFace (s : Store) (req : Req) (now : Time) (img : List Nat) (uid : Nat)
    (emp : Employee) (enc : List ℚ)
    (h1 : req.image = some img) (h2 : req.userId = some uid)
    (h3 : req.detection = DetectResult.noFace)
    (h4 : findEmployee s uid = some emp) (h5 : emp.face_encoding = some enc) :
    checkOut s req now = (Except.error ApiError.noFaceDetected, s) := by
  simp [checkOut, h1, h2, h3, h4, h5]

theorem checkOut_mismatch (s : Store) (req : Req) (now : Time) (img : List Nat) (uid : Nat)
    (emp : Employee) (enc desc : List ℚ)
    (h1 : req.image = some img) (h2 : req.userId = some uid)
    (h3 : req.detection = DetectResult.found desc)
    (h4 : findEmployee s uid = some emp) (h5 : emp.face_encoding = some enc)
    (h6 : isMatch (some enc) (some desc) (1 / 2) = false) :
    checkOut s req now = (Except.error ApiError.mismatch, s) := by
  simp only [checkOut, h1, h2, h3, h4, h5]
  rw [one_div] at h6
  simp [h6]

theorem checkOut_noOpen (s : Store) (req : Req) (now : Time) (img : List Nat) (uid : Nat)
    (emp : Employee) (enc desc : List ℚ)
    (h1 : req.image = some img) (h2 : req.userId = some uid)
    (h3 : req.detection = DetectResult.found desc)
    (h4 : findEmployee s uid = some emp) (h5 : emp.face_encoding = some enc)
    (h6 : isMatch (some enc) (some desc) (1 / 2) = true)
    (h7 : latestOpen s uid = none) :
    checkOut s req now = (Except.error ApiError.noOpenSession, s) := by
  simp only [checkOut, h1, h2, h3, h4, h5, h7]
  rw [one_div] at h6
  simp [h6, h7]

theorem checkOut_ok_eq (s : Store) (req : Req) (now : Time) (img : List Nat) (uid : Nat)
    (emp : Employee) (enc desc : List ℚ) (last : Session)
    (h1 : req.image = some img) (h2 : req.userId = some uid)
    (h3 : req.detection = DetectResult.found desc)
    (h4 : findEmployee s uid = some emp) (h5 : emp.face_encoding = some enc)
    (h6 : isMatch (some enc) (some desc) (1 / 2) = true)
    (h7 : latestOpen s uid = some last) :
    checkOut s req now =
      (Except.ok (closeForCheckOut now img last),
       { s with attendance :=
           s.attendance.map (fun r => if r.id = last.id then closeForCheckOut now img r else r) }) := by
  simp only [checkOut, h1, h2, h3, h4, h5, h7]
  rw [one_div] at h6
  simp [h6, h7]

/-- Inversion of a successful check-out: all guards passed, an open session
was found, and the store update closes exactly the rows carrying its id. -/
theorem checkOut_ok_inv (s : Store) (req : Req) (now : Time) (sess : Session)
    (h : (checkOut s req now).1 = Except.ok sess) :
    ∃ img uid desc emp enc last,
      req.image = some img ∧ req.userId = some uid ∧
      req.detection = DetectResult.found desc ∧
      findEmployee s uid = some emp ∧ emp.face_encoding = some enc ∧
      isMatch (some enc) (some desc) (1 / 2) = true ∧
      latestOpen s uid = some last ∧
      sess = closeForCheckOut now img last ∧
      (checkOut s req now).2 =
        { s with attendance :=
            s.attendance.map (fun r => if r.id = last.id then closeForCheckOut now img r else r) } := by
  cases h1 : req.image with
  | none => rw [checkOut_noImage s req now h1] at h; simp at h
  | some img =>
  cases h2 : req.userId with
  | none => rw [checkOut_noUser s req now img h1 h2] at h; simp at h
  | some uid =>
  cases h3 : req.detection with
  | unavailable => rw [checkOut_unavail s req now img uid h1 h2 h3] at h; simp at h
  | noFace =>
    have h3' : req.detection ≠ DetectResult.unavailable := by rw [h3]; simp
    cases h4 : findEmployee s uid with
    | none => rw [checkOut_notFound s req now img uid h1 h2 h3' h4] at h; simp at h
    | some emp =>
    cases h5 : emp.face_encoding with
    | none => rw [checkOut_notEnrolled s req now img uid emp h1 h2 h3' h4 h5] at h; simp at h
    | some enc => rw [checkOut_noFace s req now img uid emp enc h1 h2 h3 h4 h5] at h; simp at h
  | found desc =>
    have h3' : req.detection ≠ DetectResult.unavailable := by rw [h3]; simp
    cases h4 : findEmployee s uid with
    | none => rw [checkOut_notFound s req now img uid h1 h2 h3' h4] at h; simp at h
    | some emp =>
    cases h5 : emp.face_encoding with
    | none => rw [checkOut_notEnrolled s req now img uid emp h1 h2 h3' h4 h5] at h; simp at h
    | some enc =>
    cases h6 : isMatch (some enc) (some desc) (1 / 2) with
    | false => rw [checkOut_mismatch s req now img uid emp enc desc h1 h2 h3 h4 h5 h6] at h; simp at h
    | true =>
    cases h7 : latestOpen s uid with
    | none => rw [checkOut_noOpen s req now img uid emp enc desc h1 h2 h3 h4 h5 h6 h7] at h; simp at h
    | some last =>
      have heq := checkOut_ok_eq s req now img uid emp enc desc last h1 h2 h3 h4 h5 h6 h7
      rw [heq] at h
      have hsess : sess = closeForCheckOut now img last := (Except.ok.inj h).symm
      refine ⟨img, uid, desc, emp, enc, last, rfl, rfl, rfl, h4, h5, h6, h7, hsess, ?_⟩
      simp [heq]

/-- Every check-out that does not succeed leaves the store unchanged. -/
theorem checkOut_error_snd (s : Store) (req : Req) (now : Time) (e : ApiError)
    (h : (checkOut s req now).1 = Except.error e) :
    (checkOut s req now).2 = s := by
  cases h1 : req.image with
  | none => rw [checkOut_noImage s req now h1]
  | some img =>
  cases h2 : req.userId with
  | none => rw [checkOut_noUser s req now img h1 h2]
  | some uid =>
  cases h3 : req.detection with
  | unavailable => rw [checkOut_unavail s req now img uid h1 h2 h3]
  | noFace =>
    have h3' : req.detection ≠ DetectResult.unavailable := by rw [h3]; simp
    cases h4 : findEmployee s uid with
    | none => rw [checkOut_notFound s req now img uid h1 h2 h3' h4]
    | some emp =>
    cases h5 : emp.face_encoding with
    | none => rw [checkOut_notEnrolled s req now img uid emp h1 h2 h3' h4 h5]
    | some enc => rw [checkOut_noFace s req now img uid emp enc h1 h2 h3 h4 h5]
  | found desc =>
    have h3' : req.detection ≠ DetectResult.unavailable := by rw [h3]; simp
    cases h4 : findEmployee s uid with
    | none => rw [checkOut_notFound s req now img uid h1 h2 h3' h4]
    | some emp =>
    cases h5 : emp.face_encoding with
    | none => rw [checkOut_notEnrolled s req now img uid emp h1 h2 h3' h4 h5]
    | some enc =>
    cases h6 : isMatch (some enc) (some desc) (1 / 2) with
    | false => rw [checkOut_mismatch s req now img uid emp enc desc h1 h2 h3 h4 h5 h6]
    | true =>
    cases h7 : latestOpen s uid with
    | none => rw [checkOut_noOpen s req now img uid emp enc desc h1 h2 h3 h4 h5 h6 h7]
    | some last =>
      rw [checkOut_ok_eq s req now img uid emp enc desc last h1 h2 h3 h4 h5 h6 h7] at h
      simp at h

/-- The new store after a check-out: either unchanged, or the rows carrying
the id of the found open session are closed. -/
theorem checkOut_snd_cases (s : Store) (req : Req) (now : Time) :
    (checkOut s req now).2 = s ∨
    ∃ (img : List Nat) (last : Session),
      (checkOut s req now).2 =
        { s with attendance :=
            s.attendance.map (fun r => if r.id = last.id then closeForCheckOut now img r else r) } := by
  cases h : (checkOut s req now).1 with
  | error e => exact Or.inl (checkOut_error_snd s req now e h)
  | ok sess =>
    obtain ⟨img, uid, desc, emp, enc, last, p1, p2, p3, p4, p5, p6, p7, p8, hsnd⟩ :=
      checkOut_ok_inv s req now sess h
    exact Or.inr ⟨img, last, hsnd⟩

/-! ## Open-session helpers -/

theorem latestOpen_of_nil (s : Store) (uid : Nat) (h : openSessions s uid = []) :
    latestOpen s uid = none := by
  unfold latestOpen
  rw [h]
  rfl

theorem foldl_latest_mem (l : List Session) (acc : Option Session) (r : Session)
    (h : l.foldl
      (fun acc r =>
        match acc with
        | none => some r
        | some m => if m.check_in_time < r.check_in_time then some r else some m)
      acc = some r) :
    acc = some r ∨ r ∈ l := by
  induction l generalizing acc with
  | nil => exact Or.inl h
  | cons x xs ih =>
    rcases ih _ h with hacc | hmem
    · cases acc with
      | none =>
        simp only at hacc
        exact Or.inr (by rw [← Option.some.inj hacc]; exact List.mem_cons_self x xs)
      | some m =>
        simp only at hacc
        by_cases hlt : m.check_in_time < x.check_in_time
        · rw [if_pos hlt] at hacc
          exact Or.inr (by rw [← Option.some.inj hacc]; exact List.mem_cons_self x xs)
        · rw [if_neg hlt] at hacc
          exact Or.inl hacc
    · exact Or.inr (List.mem_cons_of_mem x hmem)

theorem latestOpen_mem (s : Store) (uid : Nat) (last : Session)
    (h : latestOpen s uid = some last) : last ∈ openSessions s uid := by
  rcases foldl_latest_mem (openSessions s uid) none last h with hacc | hmem
  · cases hacc
  · exact hmem

theorem length_filter_map_le {α : Type} (l : List α) (f : α → α) (p : α → Bool)
    (h : ∀ x ∈ l, p (f x) = true → p x = true) :
    ((l.map f).filter p).length ≤ (l.filter p).length := by
  induction l with
  | nil => simp
  | cons x xs ih =>
    have ih' := ih (fun y hy hpy => h y (List.mem_cons_of_mem x hy) hpy)
    simp only [List.map_cons, List.filter_cons]
    by_cases hx : p (f x) = true
    · rw [if_pos hx, if_pos (h x (List.mem_cons_self x xs) hx)]
      simpa using ih'
    · rw [if_neg hx]
      by_cases hpx : p x = true
      · rw [if_pos hpx]
        exact le_trans ih' (by simp)
      · rw [if_neg hpx]
        exact ih'

/-! ## C1 -/

/-- C1 counterexample: from the empty store holding only identity 1, two
successive successful CheckIns for identity 1 (no CheckOut or Reconciliation
between them) leave two sessions with closed_at null for that identity, so a
CheckIn performed while the identity already has an open Session does create
a second open Session. -/
theorem double_checkin_creates_second_open_session :
    (openSessions ((checkIn ((checkIn cStore cReq 100).2) cReq 200).2) 1).length = 2 := by
  have e1 := checkIn_ok_eq cStore cReq 100 [1, 2, 3] 1 cEmployee [0] [0]
    rfl rfl rfl rfl rfl (isMatch_self [0])
  have h1 : (checkIn cStore cReq 100).2 = cStore1 := by rw [e1]; rfl
  rw [h1]
  have e2 := checkIn_ok_eq cStore1 cReq 200 [1, 2, 3] 1 cEmployee [0] [0]
    rfl rfl rfl rfl rfl (isMatch_self [0])
  rw [e2]
  rfl

/-- C1 amended: checkIn performs no open-session check at all — every
successful CheckIn appends one new open Session for the identity regardless
of the sessions it already has (so an identity checking in twice without an
intervening close holds two open Sessions); CheckOut and Reconciliation
never increase the number of open Sessions of any identity. -/
theorem checkin_appends_open_session_unconditionally :
    (∀ (s : Store) (req : Req) (now : Time) (uid : Nat) (sess : Session),
        req.userId = some uid → (checkIn s req now).1 = Except.ok sess →
        openSessions (checkIn s req now).2 uid = openSessions s uid ++ [sess]) ∧
    (∀ (s : Store) (req : Req) (now : Time) (uid : Nat),
        (openSessions (checkOut s req now).2 uid).length ≤ (openSessions s uid).length) ∧
    (∀ (s : Store) (now : Time) (uid : Nat),
        (openSessions (runAutoCheckOut s now).2 uid).length ≤ (openSessions s uid).length) := by
  refine ⟨?_, ?_, ?_⟩
  · intro s req now uid sess huid hok
    obtain ⟨img, uid', desc, emp, enc, h1, h2, h3, h4, h5, h6, hsess, hsnd⟩ :=
      checkIn_ok_inv s req now sess hok
    have huid2 : uid = uid' := by
      rw [h2] at huid
      exact (Option.some.inj huid).symm
    rw [hsnd, huid2]
    show ((s.attendance ++ [sess]).filter _) = _
    rw [List.filter_append]
    have hone : [sess].filter
        (fun r => decide (r.employee_id = uid' ∧ r.check_out_time = none)) = [sess] := by
      rw [hsess]
      simp [mkCheckInSession]
    rw [hone]
    rfl
  · intro s req now uid
    rcases checkOut_snd_cases s req now with hsame | ⟨img, last, hsnd⟩
    · rw [hsame]
    · rw [hsnd]
      show (((s.attendance.map _).filter _)).length ≤ _
      apply length_filter_map_le
      intro x _ hpx
      by_cases hid : x.id = last.id
      · rw [if_pos hid] at hpx
        simp [closeForCheckOut] at hpx
      · rwa [if_neg hid] at hpx
  · intro s now uid
    show (((s.attendance.map _).filter _)).length ≤ _
    apply length_filter_map_le
    intro x _ hpx
    by_cases hid : ((s.attendance.filter (closesToday now)).map (fun r => r.id)).contains x.id
    · rw [if_pos hid] at hpx
      simp [closeRecord] at hpx
    · rwa [if_neg hid] at hpx

/-- Witness for the amended C1 claim: on the concrete store a successful
check-in extends the open-session list of identity 1 by the new session. -/
theorem checkin_appends_open_session_unconditionally_witness :
    openSessions (checkIn cStore cReq 100).2 1 =
      openSessions cStore 1 ++ [mkCheckInSession 0 1 100 [1, 2, 3]] := by
  have e1 := checkIn_ok_eq cStore cReq 100 [1, 2, 3] 1 cEmployee [0] [0]
    rfl rfl rfl rfl rfl (isMatch_self [0])
  exact checkin_appends_open_session_unconditionally.1 cStore cReq 100 1
    (mkCheckInSession 0 1 100 [1, 2, 3]) rfl (by rw [e1]; rfl)

/-! ## C5 -/

/-- C5: a CheckOut for an identity with no open Session — with the earlier
verification checks passing, since the source tests them first — fails with
the NoOpenSession error and leaves the store untouched; moreover every
failing CheckOut, whatever its error, leaves the store untouched. -/
theorem checkout_without_open_session :
    (∀ (s : Store) (req : Req) (now : Time) (img : List Nat) (uid : Nat)
        (emp : Employee) (enc desc : List ℚ),
        req.image = some img → req.userId = some uid →
        req.detection = DetectResult.found desc →
        findEmployee s uid = some emp → emp.face_encoding = some enc →
        isMatch (some enc) (some desc) (1 / 2) = true →
        openSessions s uid = [] →
        checkOut s req now = (Except.error ApiError.noOpenSession, s)) ∧
    (∀ (s : Store) (req : Req) (now : Time) (e : ApiError),
        (checkOut s req now).1 = Except.error e → (checkOut s req now).2 = s) := by
  constructor
  · intro s req now img uid emp enc desc h1 h2 h3 h4 h5 h6 hopen
    exact checkOut_noOpen s req now img uid emp enc desc h1 h2 h3 h4 h5 h6
      (latestOpen_of_nil s uid hopen)
  · intro s req now e h
    exact checkOut_error_snd s req now e h

/-- Witness: on the concrete store with no attendance rows, a fully verified
check-out for identity 1 returns NoOpenSession and the unchanged store. -/
theorem checkout_without_open_session_witness :
    checkOut cStore cReq 100 = (Except.error ApiError.noOpenSession, cStore) :=
  checkout_without_open_session.1 cStore cReq 100 [1, 2, 3] 1 cEmployee [0] [0]
    rfl rfl rfl rfl rfl (isMatch_self [0]) rfl

/-! ## C8 -/

/-- C8 counterexample: identity 2 does not exist in the store, so the first
check of the claimed priority order (identity exists) fails; yet when the
extraction adapter throws, the check-in rejection is ExtractionUnavailable,
not IdentityNotFound — the thrown detection rejects the Promise.all join
before any validation runs. -/
theorem unavailable_preempts_identity_check :
    findEmployee cStore 2 = none ∧
    checkIn cStore cReqUnavail 100 = (Except.error ApiError.extractionUnavailable, cStore) ∧
    ApiError.extractionUnavailable ≠ ApiError.identityNotFound := by
  refine ⟨rfl, ?_, by simp⟩
  exact checkIn_unavail cStore cReqUnavail 100 [1] 2 rfl rfl rfl

/-- C8 amended: when the extraction call completes (returning a descriptor
or no face), the rejection follows the fixed priority order — identity
exists, then registered embedding, then face present, then match, then (for
CheckOut) open session — short-circuiting at the first failing check; a
thrown extraction preempts all of these checks; and no failing request
mutates the store. -/
theorem verification_priority_order :
    (∀ (s : Store) (req : Req) (now : Time) (img : List Nat) (uid : Nat),
        req.image = some img → req.userId = some uid →
        req.detection ≠ DetectResult.unavailable → findEmployee s uid = none →
        checkIn s req now = (Except.error ApiError.identityNotFound, s) ∧
        checkOut s req now = (Except.error ApiError.identityNotFound, s)) ∧
    (∀ (s : Store) (req : Req) (now : Time) (img : List Nat) (uid : Nat) (emp : Employee),
        req.image = some img → req.userId = some uid →
        req.detection ≠ DetectResult.unavailable →
        findEmployee s uid = some emp → emp.face_encoding = none →
        checkIn s req now = (Except.error ApiError.notEnrolled, s) ∧
        checkOut s req now = (Except.error ApiError.notEnrolled, s)) ∧
    (∀ (s : Store) (req : Req) (now : Time) (img : List Nat) (uid : Nat)
        (emp : Employee) (enc : List ℚ),
        req.image = some img → req.userId = some uid →
        req.detection = DetectResult.noFace →
        findEmployee s uid = some emp → emp.face_encoding = some enc →
        checkIn s req now = (Except.error ApiError.noFaceDetected, s) ∧
        checkOut s req now = (Except.error ApiError.noFaceDetected, s)) ∧
    (∀ (s : Store) (req : Req) (now : Time) (img : List Nat) (uid : Nat)
        (emp : Employee) (enc desc : List ℚ),
        req.image = some img → req.userId = some uid →
        req.detection = DetectResult.found desc →
        findEmployee s uid = some emp → emp.face_encoding = some enc →
        isMatch (some enc) (some desc) (1 / 2) = false →
        checkIn s req now = (Except.error ApiError.mismatch, s) ∧
        checkOut s req now = (Except.error ApiError.mismatch, s)) ∧
    (∀ (s : Store) (req : Req) (now : Time) (img : List Nat) (uid : Nat)
        (emp : Employee) (enc desc : List ℚ),
        req.image = some img → req.userId = some uid →
        req.detection = DetectResult.found desc →
        findEmployee s uid = some emp → emp.face_encoding = some enc →
        isMatch (some enc) (some desc) (1 / 2) = true → latestOpen s uid = none →
        checkOut s req now = (Except.error ApiError.noOpenSession, s)) ∧
    (∀ (s : Store) (req : Req) (now : Time) (img : List Nat) (uid : Nat),
        req.image = some img → req.userId = some uid →
        req.detection = DetectResult.unavailable →
        checkIn s req now = (Except.error ApiError.extractionUnavailable, s) ∧
        checkOut s req now = (Except.error ApiError.extractionUnavailable, s)) ∧
    (∀ (s : Store) (req : Req) (now : Time) (e : ApiError),
        ((checkIn s req now).1 = Except.error e → (checkIn s req now).2 = s) ∧
        ((checkOut s req now).1 = Except.error e → (checkOut s req now).2 = s)) := by
  refine ⟨?_, ?_, ?_, ?_, ?_, ?_, ?_⟩
  · intro s req now img uid h1 h2 h3 h4
    exact ⟨checkIn_notFound s req now img uid h1 h2 h3 h4,
           checkOut_notFound s req now img uid h1 h2 h3 h4⟩
  · intro s req now img uid emp h1 h2 h3 h4 h5
    exact ⟨checkIn_notEnrolled s req now img uid emp h1 h2 h3 h4 h5,
           checkOut_notEnrolled s req now img uid emp h1 h2 h3 h4 h5⟩
  · intro s req now img uid emp enc h1 h2 h3 h4 h5
    exact ⟨checkIn_noFace s req now img uid emp enc h1 h2 h3 h4 h5,
           checkOut_noFace s req now img uid emp enc h1 h2 h3 h4 h5⟩
  · intro s req now img uid emp enc desc h1 h2 h3 h4 h5 h6
    exact ⟨checkIn_mismatch s req now img uid emp enc desc h1 h2 h3 h4 h5 h6,
           checkOut_mismatch s req now img uid emp enc desc h1 h2 h3 h4 h5 h6⟩
  · intro s req now img uid emp enc desc h1 h2 h3 h4 h5 h6 h7
    exact checkOut_noOpen s req now img uid emp enc desc h1 h2 h3 h4 h5 h6 h7
  · intro s req now img uid h1 h2 h3
    exact ⟨checkIn_unavail s req now img uid h1 h2 h3,
           checkOut_unavail s req now img uid h1 h2 h3⟩
  · intro s req now e
    exact ⟨checkIn_error_snd s req now e, checkOut_error_snd s req now e⟩

/-- Witness for the amended C8 claim at concrete inputs: a mismatching face
for the enrolled identity 1 is rejected with BiometricMismatch by both
operations without touching the store, and an unknown identity with a
completed extraction is rejected with IdentityNotFound. -/
theorem verification_priority_order_witness :
    (checkIn cStore cReqMismatch 100 = (Except.error ApiError.mismatch, cStore) ∧
     checkOut cStore cReqMismatch 100 = (Except.error ApiError.mismatch, cStore)) ∧
    checkIn cStore { cReq with userId := some 2 } 100 =
      (Except.error ApiError.identityNotFound, cStore) := by
  constructor
  · exact verification_priority_order.2.2.2.1 cStore cReqMismatch 100 [1] 1
      cEmployee [0] [1] rfl rfl rfl rfl rfl isMatch_zero_one
  · exact (verification_priority_order.1 cStore { cReq with userId := some 2 } 100
      [1, 2, 3] 2 rfl rfl (by simp [cReq]) rfl).1

/-! ## C10 -/

/-- C10: a successful CheckIn stores the base64 encoding of the captured
image in the check_in_image column of the inserted session, and a successful
CheckOut stores the base64 encoding of its captured image in the
check_out_image column of the updated session. -/
theorem captured_images_persisted :
    (∀ (s : Store) (req : Req) (now : Time) (img : List Nat) (sess : Session),
        req.image = some img → (checkIn s req now).1 = Except.ok sess →
        sess.check_in_image = encodeBase64 img) ∧
    (∀ (s : Store) (req : Req) (now : Time) (img : List Nat) (sess : Session),
        req.image = some img → (checkOut s req now).1 = Except.ok sess →
        sess.check_out_image = some (encodeBase64 img) ∧
        sess ∈ (checkOut s req now).2.attendance) := by
  constructor
  · intro s req now img sess himg hok
    obtain ⟨img', uid', desc, emp, enc, h1, h2, h3, h4, h5, h6, hsess, hsnd⟩ :=
      checkIn_ok_inv s req now sess hok
    have : img' = img := by
      rw [h1] at himg
      exact Option.some.inj himg
    rw [hsess, this]
    rfl
  · intro s req now img sess himg hok
    obtain ⟨img', uid', desc, emp, enc, last, h1, h2, h3, h4, h5, h6, h7, hsess, hsnd⟩ :=
      checkOut_ok_inv s req now sess hok
    have himg' : img' = img := by
      rw [h1] at himg
      exact Option.some.inj himg
    rw [himg'] at hsess hsnd
    constructor
    · rw [hsess]
      rfl
    · have hmem : last ∈ s.attendance :=
        (List.mem_filter.mp (latestOpen_mem s uid' last h7)).1
      rw [hsnd, hsess]
      show closeForCheckOut now img last ∈
        (s.attendance.map (fun r => if r.id = last.id then closeForCheckOut now img r else r))
      have heq : closeForCheckOut now img last =
          (fun r => if r.id = last.id then closeForCheckOut now img r else r) last := by
        simp
      rw [heq]
      exact List.mem_map_of_mem _ hmem

/-- Witness: on the concrete store, the session inserted by a successful
check-in carries the base64 encoding of the captured image, and the row
updated by the following check-out carries the encoding of its image. -/
theorem captured_images_persisted_witness :
    (mkCheckInSession 0 1 100 [1, 2, 3]).check_in_image = encodeBase64 [1, 2, 3] ∧
    (closeForCheckOut 200 [1, 2, 3] cSess).check_out_image = some (encodeBase64 [1, 2, 3]) := by
  constructor
  · have e1 := checkIn_ok_eq cStore cReq 100 [1, 2, 3] 1 cEmployee [0] [0]
      rfl rfl rfl rfl rfl (isMatch_self [0])
    exact captured_images_persisted.1 cStore cReq 100 [1, 2, 3]
      (mkCheckInSession 0 1 100 [1, 2, 3]) rfl (by rw [e1]; rfl)
  · have e3 := checkOut_ok_eq cStore1 cReq 200 [1, 2, 3] 1 cEmployee [0] [0] cSess
      rfl rfl rfl rfl rfl (isMatch_self [0]) rfl
    exact (captured_images_persisted.2 cStore1 cReq 200 [1, 2, 3]
      (closeForCheckOut 200 [1, 2, 3] cSess) rfl (by rw [e3])).1

/-! ## C3 -/

/-- C3: a successful CheckIn stores the punctuality classified from the
request instant; the classification is Early exactly below the 08:00:00.000
facility start, On Time exactly between start and the 08:15:00.000 late
cutoff with both boundaries inclusive, and Late exactly above the cutoff;
in particular 07:59 is Early, 08:10 is On Time and 08:16 is Late. -/
theorem punctuality_classification :
    (∀ (s : Store) (req : Req) (now : Time) (sess : Session),
        (checkIn s req now).1 = Except.ok sess →
        sess.status_time = some (statusString (classifyStatus now))) ∧
    (∀ t : Time,
        (classifyStatus t = StatusTime.early ↔ msOfDay t < startMs) ∧
        (classifyStatus t = StatusTime.onTime ↔ startMs ≤ msOfDay t ∧ msOfDay t ≤ lateMs) ∧
        (classifyStatus t = StatusTime.late ↔ lateMs < msOfDay t)) ∧
    classifyStatus (7 * 3600000 + 59 * 60000) = StatusTime.early ∧
    classifyStatus (8 * 3600000 + 10 * 60000) = StatusTime.onTime ∧
    classifyStatus (8 * 3600000 + 15 * 60000) = StatusTime.onTime ∧
    classifyStatus (8 * 3600000 + 16 * 60000) = StatusTime.late := by
  refine ⟨?_, ?_, rfl, rfl, rfl, rfl⟩
  · intro s req now sess hok
    obtain ⟨img, uid, desc, emp, enc, h1, h2, h3, h4, h5, h6, hsess, hsnd⟩ :=
      checkIn_ok_inv s req now sess hok
    rw [hsess]
    rfl
  · intro t
    unfold classifyStatus
    split_ifs with hlt hgt
    · refine ⟨?_, ?_, ?_⟩ <;> simp [startMs, lateMs] at hlt ⊢ <;> omega
    · refine ⟨?_, ?_, ?_⟩ <;> simp [startMs, lateMs] at hlt hgt ⊢ <;> omega
    · refine ⟨?_, ?_, ?_⟩ <;> simp [startMs, lateMs] at hlt hgt ⊢ <;> omega

/-- Witness: the session inserted by the concrete successful check-in at
instant 100 (00:00:00.100 local, before 08:00) stores the Early
classification of that instant. -/
theorem punctuality_classification_witness :
    (mkCheckInSession 0 1 100 [1, 2, 3]).status_time =
      some (statusString (classifyStatus 100)) := by
  have e1 := checkIn_ok_eq cStore cReq 100 [1, 2, 3] 1 cEmployee [0] [0]
    rfl rfl rfl rfl rfl (isMatch_self [0])
  exact punctuality_classification.1 cStore cReq 100
    (mkCheckInSession 0 1 100 [1, 2, 3]) (by rw [e1]; rfl)

/-! ## C4 -/

theorem erase_fresh_append (l : List Nat) (a : Nat) (h : a ∉ l) :
    (l ++ [a]).erase a = l := by
  rw [List.erase_append_right _ h, List.erase_cons_head, List.append_nil]

/-- C4 counterexample: with every field required by the saga present and the
auth creation succeeding, an enrollment image on which the extraction
adapter throws (graphics libraries or models missing) terminates the run
with the external credential 7 still existing and no Identity row — an
orphaned credential left by a terminating run, which the claim rules out. -/
theorem enrollment_orphan_on_unavailable :
    (createEmployee cSagaSt cEnrollUnavail cSagaEnv).2.credentials = [7] ∧
    (createEmployee cSagaSt cEnrollUnavail cSagaEnv).2.identities = [] ∧
    (createEmployee cSagaSt cEnrollUnavail cSagaEnv).1 =
      Except.error SagaError.internalFailure ∧
    ¬ NoOrphan (createEmployee cSagaSt cEnrollUnavail cSagaEnv).2 := by
  refine ⟨rfl, rfl, rfl, ?_⟩
  intro hno
  obtain ⟨row, hrow, _⟩ := hno 7 (by decide)
  have hempty : (createEmployee cSagaSt cEnrollUnavail cSagaEnv).2.identities = [] := rfl
  rw [hempty] at hrow
  exact List.not_mem_nil row hrow

theorem createEmployee_unavail_eq (st : SagaState) (req : EnrollReq) (env : SagaEnv)
    (code : String) (img : List Nat) (hg : SagaGuards st req env code)
    (himg : req.image = some img) (hdet : req.detection = DetectResult.unavailable) :
    createEmployee st req env =
      (Except.error SagaError.internalFailure,
       { st with credentials := st.credentials ++ [env.newCredId] }) := by
  obtain ⟨hcode, hmail, hpwd, hpre, hauth⟩ := hg
  simp [createEmployee, hcode, hmail, hpwd, hpre, hauth, himg, hdet]

theorem createEmployee_noFace_eq (st : SagaState) (req : EnrollReq) (env : SagaEnv)
    (code : String) (img : List Nat) (hg : SagaGuards st req env code)
    (himg : req.image = some img) (hdet : req.detection = DetectResult.noFace) :
    createEmployee st req env =
      (Except.error SagaError.noFace,
       deleteCredential { st with credentials := st.credentials ++ [env.newCredId] }
         env.newCredId) := by
  obtain ⟨hcode, hmail, hpwd, hpre, hauth⟩ := hg
  simp [createEmployee, hcode, hmail, hpwd, hpre, hauth, himg, hdet]

theorem createEmployee_found_eq (st : SagaState) (req : EnrollReq) (env : SagaEnv)
    (code : String) (img : List Nat) (d : List ℚ) (hg : SagaGuards st req env code)
    (himg : req.image = some img) (hdet : req.detection = DetectResult.found d) :
    createEmployee st req env =
      insertPhase { st with credentials := st.credentials ++ [env.newCredId] }
        code (some d) true env := by
  obtain ⟨hcode, hmail, hpwd, hpre, hauth⟩ := hg
  simp [createEmployee, hcode, hmail, hpwd, hpre, hauth, himg, hdet]

theorem createEmployee_noImage_eq (st : SagaState) (req : EnrollReq) (env : SagaEnv)
    (code : String) (hg : SagaGuards st req env code) (himg : req.image = none) :
    createEmployee st req env =
      insertPhase { st with credentials := st.credentials ++ [env.newCredId] }
        code none false env := by
  obtain ⟨hcode, hmail, hpwd, hpre, hauth⟩ := hg
  simp [createEmployee, hcode, hmail, hpwd, hpre, hauth, himg]

theorem noOrphan_insert (st : SagaState) (cid : Nat) (row : EmployeeRow)
    (hrow : row.auth_uid = cid) (hno : NoOrphan st) :
    NoOrphan { credentials := st.credentials ++ [cid],
               identities := st.identities ++ [row] } := by
  intro c hc
  rcases List.mem_append.mp hc with hcl | hcr
  · obtain ⟨r, hr, hra⟩ := hno c hcl
    exact ⟨r, List.mem_append_left _ hr, hra⟩
  · have hcc : c = cid := by simpa using hcr
    exact ⟨row, List.mem_append_right _ (List.mem_singleton_self row), by rw [hrow, hcc]⟩

/-- C4 amended: the compensation deletes the step-2 credential on the
NoFaceFound outcome and on a failed final insert, restoring the initial
state exactly (for a fresh credential id), and every terminating run whose
extraction call does not throw preserves orphan-freedom; the exception is a
run whose extraction throws after step 2, which leaves the credential
orphaned without an Identity row. -/
theorem enrollment_compensation :
    (∀ (st : SagaState) (req : EnrollReq) (env : SagaEnv) (code : String) (img : List Nat),
        SagaGuards st req env code → env.newCredId ∉ st.credentials →
        ((req.image = some img → req.detection = DetectResult.noFace →
            createEmployee st req env = (Except.error SagaError.noFace, st)) ∧
         (req.image = none → env.insertOutcome = InsertOutcome.uniqueViolation →
            createEmployee st req env = (Except.error SagaError.conflict, st)) ∧
         (req.image = none → env.insertOutcome = InsertOutcome.storeFailure →
            createEmployee st req env = (Except.error SagaError.internalFailure, st)) ∧
         (∀ desc : List ℚ, req.image = some img →
            req.detection = DetectResult.found desc →
            env.insertOutcome = InsertOutcome.uniqueViolation →
            createEmployee st req env = (Except.error SagaError.conflict, st)) ∧
         (∀ desc : List ℚ, req.image = some img →
            req.detection = DetectResult.found desc →
            env.insertOutcome = InsertOutcome.storeFailure →
            createEmployee st req env = (Except.error SagaError.internalFailure, st)))) ∧
    (∀ (st : SagaState) (req : EnrollReq) (env : SagaEnv),
        req.detection ≠ DetectResult.unavailable →
        env.newCredId ∉ st.credentials →
        NoOrphan st → NoOrphan (createEmployee st req env).2) := by
  have herase : ∀ (st : SagaState) (cid : Nat), cid ∉ st.credentials →
      deleteCredential { st with credentials := st.credentials ++ [cid] } cid = st := by
    intro st cid hfresh
    simp only [deleteCredential]
    rw [erase_fresh_append st.credentials cid hfresh]
  constructor
  · intro st req env code img hg hfresh
    refine ⟨?_, ?_, ?_, ?_, ?_⟩
    · intro himg hdet
      rw [createEmployee_noFace_eq st req env code img hg himg hdet,
        herase st env.newCredId hfresh]
    · intro himg hins
      rw [createEmployee_noImage_eq st req env code hg himg]
      simp only [insertPhase, hins]
      rw [herase st env.newCredId hfresh]
    · intro himg hins
      rw [createEmployee_noImage_eq st req env code hg himg]
      simp only [insertPhase, hins]
      rw [herase st env.newCredId hfresh]
    · intro desc himg hdet hins
      rw [createEmployee_found_eq st req env code img desc hg himg hdet]
      simp only [insertPhase, hins]
      rw [herase st env.newCredId hfresh]
    · intro desc himg hdet hins
      rw [createEmployee_found_eq st req env code img desc hg himg hdet]
      simp only [insertPhase, hins]
      rw [herase st env.newCredId hfresh]
  · intro st req env hdet hfresh hno
    by_cases hcode : ∃ code, req.employee_code = some code
    case neg =>
      have hnone : req.employee_code = none := by
        cases h : req.employee_code with
        | none => rfl
        | some c => exact absurd ⟨c, h⟩ hcode
      simpa only [createEmployee, hnone] using hno
    case pos =>
    obtain ⟨code, hcode⟩ := hcode
    by_cases hval : (req.hasEmail && req.hasPassword) = true
    case neg =>
      have : createEmployee st req env = (Except.error SagaError.badRequest, st) := by
        simp only [createEmployee, hcode]
        simp [hval]
      simpa only [this] using hno
    case pos =>
    rw [Bool.and_eq_true] at hval
    obtain ⟨hmail, hpwd⟩ := hval
    by_cases hpre : st.identities.any (fun r => r.employee_code == code) = true
    case pos =>
      have : createEmployee st req env = (Except.error SagaError.conflictPreCheck, st) := by
        simp only [createEmployee, hcode, hmail, hpwd, hpre]
        simp
      simpa only [this] using hno
    case neg =>
    rw [Bool.not_eq_true] at hpre
    by_cases hauth : env.authCreateFails = true
    case pos =>
      have : createEmployee st req env = (Except.error SagaError.authFailure, st) := by
        simp only [createEmployee, hcode, hmail, hpwd, hpre, hauth]
        simp
      simpa only [this] using hno
    case neg =>
    rw [Bool.not_eq_true] at hauth
    have hg : SagaGuards st req env code := ⟨hcode, hmail, hpwd, hpre, hauth⟩
    have hinsert : ∀ (enc : Option (List ℚ)) (reg : Bool),
        NoOrphan (insertPhase { st with credentials := st.credentials ++ [env.newCredId] }
          code enc reg env).2 := by
      intro enc reg
      cases hins : env.insertOutcome with
      | insOk =>
        simp only [insertPhase, hins]
        exact noOrphan_insert st env.newCredId _ rfl hno
      | uniqueViolation =>
        simp only [insertPhase, hins]
        rw [herase st env.newCredId hfresh]
        exact hno
      | storeFailure =>
        simp only [insertPhase, hins]
        rw [herase st env.newCredId hfresh]
        exact hno
    cases himg : req.image with
    | none =>
      rw [createEmployee_noImage_eq st req env code hg himg]
      exact hinsert none false
    | some img =>
      cases hdet2 : req.detection with
      | unavailable => exact absurd hdet2 hdet
      | noFace =>
        rw [createEmployee_noFace_eq st req env code img hg himg hdet2,
          herase st env.newCredId hfresh]
        exact hno
      | found d =>
        rw [createEmployee_found_eq st req env code img d hg himg hdet2]
        exact hinsert (some d) true

/-- Witness for the amended C4 claim at concrete inputs: the no-face
enrollment on the empty state deletes credential 7 and restores the empty
state; the with-image enrollment whose detected face passes but whose final
insert hits a uniqueness race is compensated to the empty state as well;
and both the racing and the successful enrollment leave no orphaned
credential. -/
theorem enrollment_compensation_witness :
    createEmployee cSagaSt cEnrollNoFace cSagaEnv = (Except.error SagaError.noFace, cSagaSt) ∧
    createEmployee cSagaSt cEnrollOk cSagaEnvUV = (Except.error SagaError.conflict, cSagaSt) ∧
    NoOrphan (createEmployee cSagaSt cEnrollOk cSagaEnvUV).2 ∧
    NoOrphan (createEmployee cSagaSt cEnrollOk cSagaEnv).2 := by
  refine ⟨?_, ?_, ?_, ?_⟩
  · exact (enrollment_compensation.1 cSagaSt cEnrollNoFace cSagaEnv "E1" [1]
      ⟨rfl, rfl, rfl, rfl, rfl⟩ (by simp [cSagaSt])).1 rfl rfl
  · exact (enrollment_compensation.1 cSagaSt cEnrollOk cSagaEnvUV "E1" [1]
      ⟨rfl, rfl, rfl, rfl, rfl⟩ (by simp [cSagaSt])).2.2.2.1 [0] rfl rfl rfl
  · exact enrollment_compensation.2 cSagaSt cEnrollOk cSagaEnvUV
      (by simp [cEnrollOk, cEnrollUnavail]) (by simp [cSagaSt])
      (by intro c hc; simp [cSagaSt] at hc)
  · exact enrollment_compensation.2 cSagaSt cEnrollOk cSagaEnv
      (by simp [cEnrollOk, cEnrollUnavail]) (by simp [cSagaSt])
      (by intro c hc; simp [cSagaSt] at hc)

/-! ## C6 -/

theorem closesToday_day_congr (t1 t2 : Time) (r : Session) (h : dayIndex t2 = dayIndex t1) :
    closesToday t2 r = closesToday t1 r := by
  unfold closesToday
  rw [h]

theorem store_eq_of_fields {a b : Store} (h1 : a.employees = b.employees)
    (h2 : a.attendance = b.attendance) (h3 : a.nextId = b.nextId) : a = b := by
  cases a
  cases b
  simp_all

theorem runAutoCheckOut_fst (s : Store) (t : Time) :
    (runAutoCheckOut s t).1 = (s.attendance.filter (closesToday t)).length := rfl

theorem runAutoCheckOut_att (s : Store) (t : Time) :
    (runAutoCheckOut s t).2.attendance =
      s.attendance.map (fun r =>
        if ((s.attendance.filter (closesToday t)).map (fun r => r.id)).contains r.id
        then closeRecord t r else r) := rfl

theorem runAutoCheckOut_emp (s : Store) (t : Time) :
    (runAutoCheckOut s t).2.employees = s.employees := rfl

theorem runAutoCheckOut_nid (s : Store) (t : Time) :
    (runAutoCheckOut s t).2.nextId = s.nextId := rfl

/-- C6: one reconciliation run closes exactly the attendance rows opened
within the local day of the run instant that still have a null close time
(stated for stores with distinct row ids, which every reachable store has,
since update-by-id touches all rows sharing an id), reporting their count;
an immediately repeated run in the same local day closes zero rows and
leaves the store exactly as the first run left it. -/
theorem reconciliation_idempotent :
    (∀ (s : Store) (t1 : Time), (s.attendance.map (fun r => r.id)).Nodup →
        (runAutoCheckOut s t1).2.attendance =
          s.attendance.map (fun r => if closesToday t1 r then closeRecord t1 r else r) ∧
        (runAutoCheckOut s t1).1 = (s.attendance.filter (closesToday t1)).length) ∧
    (∀ (s : Store) (t1 t2 : Time), dayIndex t2 = dayIndex t1 →
        (runAutoCheckOut (runAutoCheckOut s t1).2 t2).1 = 0 ∧
        (runAutoCheckOut (runAutoCheckOut s t1).2 t2).2 = (runAutoCheckOut s t1).2) := by
  constructor
  · intro s t1 hnd
    refine ⟨?_, runAutoCheckOut_fst s t1⟩
    rw [runAutoCheckOut_att s t1]
    apply List.map_congr_left
    intro r hr
    have hiff : (((s.attendance.filter (closesToday t1)).map (fun r => r.id)).contains r.id = true)
        ↔ closesToday t1 r = true := by
      constructor
      · intro hcont
        obtain ⟨r', hr'mem, hr'id⟩ := List.mem_map.mp (List.elem_iff.mp hcont)
        obtain ⟨hr'att, hr'c⟩ := List.mem_filter.mp hr'mem
        have hrr : r' = r := List.inj_on_of_nodup_map hnd hr'att hr hr'id
        rwa [← hrr]
      · intro hc
        exact List.elem_iff.mpr (List.mem_map_of_mem _ (List.mem_filter.mpr ⟨hr, hc⟩))
    by_cases hc : closesToday t1 r = true
    · rw [if_pos (hiff.mpr hc), if_pos hc]
    · have hncont : ¬ (((s.attendance.filter (closesToday t1)).map
          (fun r => r.id)).contains r.id = true) := fun hcont => hc (hiff.mp hcont)
      rw [if_neg hncont, if_neg hc]
  · intro s t1 t2 hday
    have hfil : (runAutoCheckOut s t1).2.attendance.filter (closesToday t2) = [] := by
      rw [runAutoCheckOut_att s t1, List.filter_eq_nil_iff]
      intro r' hr'
      obtain ⟨r, hr, hmap⟩ := List.mem_map.mp hr'
      by_cases hcont : ((s.attendance.filter (closesToday t1)).map
          (fun r => r.id)).contains r.id = true
      · rw [if_pos hcont] at hmap
        rw [← hmap]
        simp [closesToday, closeRecord]
      · rw [if_neg hcont] at hmap
        rw [← hmap]
        intro habs
        have hc1 : closesToday t1 r = true := by
          rw [← closesToday_day_congr t1 t2 r hday]
          exact habs
        exact hcont (List.elem_iff.mpr (List.mem_map_of_mem _ (List.mem_filter.mpr ⟨hr, hc1⟩)))
    refine ⟨by rw [runAutoCheckOut_fst, hfil]; rfl, ?_⟩
    refine store_eq_of_fields (runAutoCheckOut_emp _ _) ?_ (runAutoCheckOut_nid _ _)
    rw [runAutoCheckOut_att ((runAutoCheckOut s t1).2) t2, hfil]
    have hid : ∀ r ∈ (runAutoCheckOut s t1).2.attendance,
        (if (([] : List Session).map (fun r => r.id)).contains r.id
         then closeRecord t2 r else r) = r := by
      intro r _
      rfl
    rw [List.map_congr_left hid, List.map_id']

/-- Witness: on the concrete store holding one open session of day 0, one
open session of day 1 and one closed session, the run at instant 200 closes
exactly the day-0 open row (count 1), and the repeated run at instant 250
closes zero rows and returns the same store. -/
theorem reconciliation_idempotent_witness :
    (runAutoCheckOut cStoreRec 200).2.attendance =
      cStoreRec.attendance.map (fun r => if closesToday 200 r then closeRecord 200 r else r) ∧
    (runAutoCheckOut cStoreRec 200).1 = 1 ∧
    (runAutoCheckOut (runAutoCheckOut cStoreRec 200).2 250).1 = 0 ∧
    (runAutoCheckOut (runAutoCheckOut cStoreRec 200).2 250).2 = (runAutoCheckOut cStoreRec 200).2 := by
  have h1 := reconciliation_idempotent.1 cStoreRec 200 (by decide)
  have h2 := reconciliation_idempotent.2 cStoreRec 200 250 (by decide)
  exact ⟨h1.1, by rw [h1.2]; rfl, h2.1, h2.2⟩

/-! ## C7 -/

theorem step_preserves_inv (s : Store) (op : Op) (t : Time)
    (hinv : InvI2 s) (hbd : BoundedBy s t) (ht : t ≤ opTime op) :
    InvI2 (applyOp s op) ∧ BoundedBy (applyOp s op) (opTime op) := by
  cases op with
  | opCheckIn req t' =>
    simp only [opTime] at ht
    simp only [applyOp]
    rcases checkIn_snd_cases s req t' with hsame | ⟨img, uid, hsnd⟩
    · rw [hsame]
      exact ⟨hinv, fun sess hs => le_trans (hbd sess hs) ht⟩
    · rw [hsnd]
      constructor
      · intro sess hs ct hct
        rcases List.mem_append.mp hs with hold | hnew
        · exact hinv sess hold ct hct
        · have hsess : sess = mkCheckInSession s.nextId uid t' img := by simpa using hnew
          rw [hsess] at hct
          simp [mkCheckInSession] at hct
      · intro sess hs
        rcases List.mem_append.mp hs with hold | hnew
        · exact le_trans (hbd sess hold) ht
        · have hsess : sess = mkCheckInSession s.nextId uid t' img := by simpa using hnew
          rw [hsess]
          exact le_refl t'
  | opCheckOut req t' =>
    simp only [opTime] at ht
    simp only [applyOp]
    rcases checkOut_snd_cases s req t' with hsame | ⟨img, last, hsnd⟩
    · rw [hsame]
      exact ⟨hinv, fun sess hs => le_trans (hbd sess hs) ht⟩
    · rw [hsnd]
      constructor
      · intro sess hs ct hct
        obtain ⟨r, hr, hmap⟩ := List.mem_map.mp hs
        by_cases hid : r.id = last.id
        · rw [if_pos hid] at hmap
          rw [← hmap] at hct ⊢
          have hct' : t' = ct := by simpa [closeForCheckOut] using hct
          simp only [closeForCheckOut]
          rw [← hct']
          exact le_trans (hbd r hr) ht
        · rw [if_neg hid] at hmap
          rw [← hmap] at hct ⊢
          exact hinv r hr ct hct
      · intro sess hs
        obtain ⟨r, hr, hmap⟩ := List.mem_map.mp hs
        by_cases hid : r.id = last.id
        · rw [if_pos hid] at hmap
          rw [← hmap]
          simp only [closeForCheckOut]
          exact le_trans (hbd r hr) ht
        · rw [if_neg hid] at hmap
          rw [← hmap]
          exact le_trans (hbd r hr) ht
  | opReconcile t' =>
    simp only [opTime] at ht
    simp only [applyOp]
    constructor
    · intro sess hs ct hct
      rw [runAutoCheckOut_att] at hs
      obtain ⟨r, hr, hmap⟩ := List.mem_map.mp hs
      by_cases hcont : ((s.attendance.filter (closesToday t')).map
          (fun r => r.id)).contains r.id = true
      · rw [if_pos hcont] at hmap
        rw [← hmap] at hct ⊢
        have hct' : t' = ct := by simpa [closeRecord] using hct
        simp only [closeRecord]
        rw [← hct']
        exact le_trans (hbd r hr) ht
      · rw [if_neg hcont] at hmap
        rw [← hmap] at hct ⊢
        exact hinv r hr ct hct
    · intro sess hs
      rw [runAutoCheckOut_att] at hs
      obtain ⟨r, hr, hmap⟩ := List.mem_map.mp hs
      by_cases hcont : ((s.attendance.filter (closesToday t')).map
          (fun r => r.id)).contains r.id = true
      · rw [if_pos hcont] at hmap
        rw [← hmap]
        simp only [closeRecord]
        exact le_trans (hbd r hr) ht
      · rw [if_neg hcont] at hmap
        rw [← hmap]
        exact le_trans (hbd r hr) ht

theorem runOps_inv_aux (ops : List Op) :
    ∀ (s : Store) (t : Time), InvI2 s → BoundedBy s t →
      (∀ op ∈ ops, t ≤ opTime op) →
      ops.Pairwise (fun a b => opTime a ≤ opTime b) →
      InvI2 (runOps s ops) := by
  induction ops with
  | nil =>
    intro s t hinv _ _ _
    exact hinv
  | cons op rest ih =>
    intro s t hinv hbd hfirst hpair
    have hstep := step_preserves_inv s op t hinv hbd (hfirst op (List.mem_cons_self op rest))
    have hpc := List.pairwise_cons.mp hpair
    exact ih (applyOp s op) (opTime op) hstep.1 hstep.2 hpc.1 hpc.2

/-- C7: in every state reached from a store with no attendance rows by a
sequence of CheckIn, CheckOut and Reconciliation operations whose clock
readings are nondecreasing (the wall clock never runs backwards), every
session carrying a close time has close time at least its open time —
invariant I2; in particular the Reconciliation Job never writes a close time
below the open time of a row it closes. -/
theorem closed_at_not_before_opened_at :
    ∀ (emps : List Employee) (ops : List Op),
      ops.Pairwise (fun a b => opTime a ≤ opTime b) →
      InvI2 (runOps (initStore emps) ops) := by
  intro emps ops hmono
  exact runOps_inv_aux ops (initStore emps) 0
    (fun sess hs => absurd hs (List.not_mem_nil sess))
    (fun sess hs => absurd hs (List.not_mem_nil sess))
    (fun op _ => Nat.zero_le _) hmono

/-- Witness: the invariant holds at the state reached by a check-in at 100,
a check-out at 200 and a reconciliation at 300 on the singleton-identity
store. -/
theorem closed_at_not_before_opened_at_witness :
    InvI2 (runOps (initStore [cEmployee])
      [Op.opCheckIn cReq 100, Op.opCheckOut cReq 200, Op.opReconcile 300]) :=
  closed_at_not_before_opened_at [cEmployee]
    [Op.opCheckIn cReq 100, Op.opCheckOut cReq 200, Op.opReconcile 300] (by decide)

/-! ## C9 -/

theorem allPresent_step (s : Store) (op : Op)
    (h : ∀ r ∈ s.attendance, r.status = "present") :
    ∀ r ∈ (applyOp s op).attendance, r.status = "present" := by
  cases op with
  | opCheckIn req t =>
    simp only [applyOp]
    rcases checkIn_snd_cases s req t with hsame | ⟨img, uid, hsnd⟩
    · rw [hsame]
      exact h
    · rw [hsnd]
      intro r hr
      rcases List.mem_append.mp hr with hold | hnew
      · exact h r hold
      · have hrr : r = mkCheckInSession s.nextId uid t img := by simpa using hnew
        rw [hrr]
        rfl
  | opCheckOut req t =>
    simp only [applyOp]
    rcases checkOut_snd_cases s req t with hsame | ⟨img, last, hsnd⟩
    · rw [hsame]
      exact h
    · rw [hsnd]
      intro r hr
      obtain ⟨x, hx, hmap⟩ := List.mem_map.mp hr
      by_cases hid : x.id = last.id
      · rw [if_pos hid] at hmap
        rw [← hmap]
        rfl
      · rw [if_neg hid] at hmap
        rw [← hmap]
        exact h x hx
  | opReconcile t =>
    simp only [applyOp]
    intro r hr
    rw [runAutoCheckOut_att] at hr
    obtain ⟨x, hx, hmap⟩ := List.mem_map.mp hr
    by_cases hcont : ((s.attendance.filter (closesToday t)).map
        (fun r => r.id)).contains x.id = true
    · rw [if_pos hcont] at hmap
      rw [← hmap]
      rfl
    · rw [if_neg hcont] at hmap
      rw [← hmap]
      exact h x hx

theorem runOps_allPresent_aux (ops : List Op) :
    ∀ s : Store, (∀ r ∈ s.attendance, r.status = "present") →
      ∀ r ∈ (runOps s ops).attendance, r.status = "present" := by
  induction ops with
  | nil =>
    intro s h
    exact h
  | cons op rest ih =>
    intro s h
    exact ih (applyOp s op) (allPresent_step s op h)

/-- C9: every session of a reachable store has status present, so the
status filter of the aggregators keeps exactly the sessions opened in the
window; presentDays is the number of distinct calendar dates (single
identity) or distinct identity-date pairs (organization wide) among the
filtered sessions; absent is max(0, expectedPresenceUnits - presentDays)
with expectedPresenceUnits = workingDays for the single-identity view and
identityCount * workingDays organization-wide, hence never negative; and
workingDays = 20 with 3 distinct present days yields absent = 17, while 25
present days against 20 working days yields absent = 0. -/
theorem statistics_present_and_absent :
    (∀ (emps : List Employee) (ops : List Op),
        ∀ r ∈ (runOps (initStore emps) ops).attendance, r.status = "present") ∧
    (∀ (att : List Session) (ws now : Time),
        (getAttendanceHistoryStats att ws now).present =
          ((att.filter (inWindow ws now)).map
            (fun r => dayIndex r.check_in_time)).toFinset.card ∧
        (getAttendanceHistoryStats att ws now).absent =
          max 0 (((getAttendanceHistoryStats att ws now).workingDays : Int) -
            ((getAttendanceHistoryStats att ws now).present : Int)) ∧
        0 ≤ (getAttendanceHistoryStats att ws now).absent) ∧
    (∀ (att : List Session) (n : Nat) (ws now : Time),
        (getAllAttendanceHistoryStats att n ws now).present =
          ((att.filter (inWindow ws now)).map
            (fun r => (r.employee_id, dayIndex r.check_in_time))).toFinset.card ∧
        (getAllAttendanceHistoryStats att n ws now).absent =
          max 0 ((n : Int) * ((getAllAttendanceHistoryStats att n ws now).workingDays : Int) -
            ((getAllAttendanceHistoryStats att n ws now).present : Int)) ∧
        0 ≤ (getAllAttendanceHistoryStats att n ws now).absent) ∧
    getAttendanceHistoryStats cAtt3 0 (27 * msPerDay) =
      { absent := 17, workingDays := 20, present := 3 } ∧
    getAttendanceHistoryStats cAtt25 0 (27 * msPerDay) =
      { absent := 0, workingDays := 20, present := 25 } := by
  refine ⟨?_, ?_, ?_, by decide, by decide⟩
  · intro emps ops
    exact runOps_allPresent_aux ops (initStore emps)
      (fun r hr => absurd hr (List.not_mem_nil r))
  · intro att ws now
    refine ⟨?_, ?_, ?_⟩
    · simp only [getAttendanceHistoryStats]
      rw [List.card_toFinset]
    · simp only [getAttendanceHistoryStats]
    · simp only [getAttendanceHistoryStats]
      exact le_max_left 0 _
  · intro att n ws now
    refine ⟨?_, ?_, ?_⟩
    · simp only [getAllAttendanceHistoryStats]
      rw [List.card_toFinset]
    · simp only [getAllAttendanceHistoryStats]
    · simp only [getAllAttendanceHistoryStats]
      exact le_max_left 0 _

/-- Witness: the session inserted by the concrete successful check-in, a
member of the reachable store after one CheckIn operation, has status
present. -/
theorem statistics_present_and_absent_witness :
    cSess.status = "present" := by
  have hs1 : runOps (initStore [cEmployee]) [Op.opCheckIn cReq 100] = cStore1 := by
    show (checkIn cStore cReq 100).2 = cStore1
    rw [checkIn_ok_eq cStore cReq 100 [1, 2, 3] 1 cEmployee [0] [0]
      rfl rfl rfl rfl rfl (isMatch_self [0])]
    rfl
  exact statistics_present_and_absent.1 [cEmployee] [Op.opCheckIn cReq 100] cSess
    (by rw [hs1]; exact List.mem_cons_self cSess [])

end ExpressApi
